import Mathlib

/-!
# Verification of the git_cleaner branch-review utility

A shallow embedding of the interactive branch-cleaning utility
(`git_cleaner`): the record parser, the shell-command runner, the deletion
confirmer, the branch review loop and the session driver's final report.

Raw text lines are modelled as `List Char`.  The external shell is an
oracle `Shell : List Char → ShellOut` giving, for each command string, the
captured standard-error text and whether an execution-error signal was
raised.  The operator is an oracle `Nat → List Char` giving the answer to
the n-th prompt of the session.  Functions that invoke the shell also
return the trace of command strings they actually passed to it, so that
"command X was never invoked" is expressible.
-/

/-- The fixed marker token `BRANCH_MARKER = "[[branch]]"`. -/
def markerL : List Char := "[[branch]]".data

/-- First index at which `pat` occurs as a contiguous sublist of `s`
(JavaScript `String.prototype.indexOf`); `none` when absent. -/
def indexOfSub (pat : List Char) : List Char → Option Nat
  | [] => if pat.isPrefixOf ([] : List Char) then some 0 else none
  | c :: rest =>
    if pat.isPrefixOf (c :: rest) then some 0
    else (indexOfSub pat rest).map (· + 1)

/-- First index of character `c` in a list (JavaScript `indexOf` on a
one-character needle); `none` when absent. -/
def indexOfChar (c : Char) : List Char → Option Nat
  | [] => none
  | d :: rest => if d = c then some 0 else (indexOfChar c rest).map (· + 1)

/-- Whitespace characters removed by JavaScript's `String.prototype.trim`,
restricted to the ASCII whitespace that can occur in a git log line. -/
def jsWS (c : Char) : Bool :=
  c = ' ' || c = '\t' || c = '\n' || c = '\r' || c = '\x0b' || c = '\x0c'

/-- JavaScript `String.prototype.trim`: drop whitespace from both ends. -/
def trimList (s : List Char) : List Char :=
  ((s.dropWhile jsWS).reverse.dropWhile jsWS).reverse

/-- The wrapper object built by `parseBranch` (source: the `branch` object
with fields `git_remote`, `git_branch`, `branch_info`). -/
structure Branch where
  git_remote : List Char
  git_branch : List Char
  branch_info : List Char
deriving DecidableEq, Repr

/-- Error string of `parseBranch` when the marker token is absent
(source line 27 of `parseBranch`). -/
def missingMarkerMsg (branch_info : List Char) : List Char :=
  "Log entry missing branch marker [[branch]] on log entry ".data ++ branch_info

/-- `branchParseFail`: the common parse-failure message format. -/
def branchParseFail (branch_info reason : List Char) : List Char :=
  "Unable to parse branch information from branch (".data ++ reason
    ++ ") ".data ++ branch_info

/-- `parseBranch` (source lines 24–53): locate the marker, trim the text
after it, split on the first `/` into remote and branch, and wrap the
result together with the original untrimmed line. -/
def parseBranch (branch_info : List Char) : Except (List Char) Branch :=
  match indexOfSub markerL branch_info with
  | none => .error (missingMarkerMsg branch_info)
  | some branch_split_idx =>
    let branch_split := trimList (branch_info.drop (branch_split_idx + markerL.length))
    if branch_split.isEmpty then
      .error (branchParseFail branch_info "No branch delimiter found".data)
    else
      match indexOfChar '/' branch_split with
      | none => .error (branchParseFail branch_info "No remote branch split found".data)
      | some remote_split_idx =>
        let git_remote := branch_split.take remote_split_idx
        let git_branch := branch_split.drop (remote_split_idx + 1)
        if git_remote.isEmpty || git_branch.isEmpty then
          .error (branchParseFail branch_info "Unable to parse out remote and branch".data)
        else
          .ok ⟨git_remote, git_branch, branch_info⟩

/-- The shell oracle's answer for one command: the captured standard-error
text and whether the process facility raised an execution-error signal
(the `error` argument of the `child_process.exec` callback being non-null). -/
structure ShellOut where
  execErr : Bool
  stderr : List Char
deriving DecidableEq, Repr

/-- The external shell: each command string gets a `ShellOut`. -/
abbrev Shell := List Char → ShellOut

/-- The full command string built by `runShellCommand`
(`util.format("cd %s;%s", target_path, command)`). -/
def mkCmd (target_path command : List Char) : List Char :=
  "cd ".data ++ target_path ++ [';'] ++ command

/-- Failure message of `runShellCommand` (source line 72). -/
def cmdFailMsg (cmd : List Char) : List Char :=
  "FAILURE running shell command:".data ++ cmd

/-- `runShellCommand` (source lines 62–79): run the command in the target
path; when `ignore_errors` is false and standard error was non-empty or an
execution-error signal was raised, fail with the failure message;
otherwise succeed with the command string that was run. -/
def runShellCommand (shell : Shell) (target_path command : List Char)
    (ignore_errors : Bool) : Except (List Char) (List Char) :=
  let cmd := mkCmd target_path command
  let out := shell cmd
  if !ignore_errors && (!out.stderr.isEmpty || out.execErr) then
    .error (cmdFailMsg cmd)
  else
    .ok cmd

/-- The remote-delete command built by `confirmDelete`
(`git push --porcelain <remote> :<branch>`). -/
def remoteDeleteCmd (branch : Branch) : List Char :=
  "git push --porcelain ".data ++ branch.git_remote ++ " :".data ++ branch.git_branch

/-- The local-delete command built by `confirmDelete`
(`git branch -D <branch>`). -/
def localDeleteCmd (branch : Branch) : List Char :=
  "git branch -D ".data ++ branch.git_branch

/-- `confirmDelete` (source lines 82–110): ask the operator to confirm the
remote-delete command; on "yes"/"y" run it with errors not ignored: on its
failure propagate the error, on its success run the local-delete command
with errors ignored and pass its callback values through.  Any other
answer skips the branch (`callback()` with no command).  The first
component is the callback outcome (`some cmd` when a command value was
handed to the callback); the second is the trace of command strings passed
to the shell, in order. -/
def confirmDelete (shell : Shell) (target_path : List Char) (branch : Branch)
    (answer : List Char) :
    Except (List Char) (Option (List Char)) × List (List Char) :=
  let remote_delete := remoteDeleteCmd branch
  if answer = "yes".data ∨ answer = "y".data then
    match runShellCommand shell target_path remote_delete false with
    | .error e => (.error e, [mkCmd target_path remote_delete])
    | .ok _ =>
      let local_del := localDeleteCmd branch
      match runShellCommand shell target_path local_del true with
      | .error e =>
        (.error e, [mkCmd target_path remote_delete, mkCmd target_path local_del])
      | .ok cmd =>
        (.ok (some cmd), [mkCmd target_path remote_delete, mkCmd target_path local_del])
  else
    (.ok none, [])

/-- The `runStats` accumulator of `branchCycle`. -/
structure RunStats where
  branch_count : Nat
  delete_count : Nat
deriving DecidableEq, Repr

/-- The body of `branchCycle` (source lines 119–157), iterated over the
remaining log entries in order, threading the index `k` of the next
operator prompt and the accumulated statistics.  Blank entries are skipped
without counting or prompting; each non-blank entry bumps `branch_count`
before parsing; a parse error halts the whole loop with that error; the
prompt answer "yes"/"y" runs `confirmDelete` (which consumes the next
prompt answer) and bumps `delete_count` when a command value came back;
"exit"/"x" halts with the "User Exit" signal; any other answer skips. -/
def branchCycleGo (shell : Shell) (ans : Nat → List Char) (target_path : List Char) :
    List (List Char) → Nat → RunStats → Option (List Char) × RunStats
  | [], _, stats => (none, stats)
  | entry :: rest, k, stats =>
    if entry.isEmpty then
      branchCycleGo shell ans target_path rest k stats
    else
      let stats1 : RunStats :=
        { stats with branch_count := stats.branch_count + 1 }
      match parseBranch entry with
      | .error e => (some e, stats1)
      | .ok branch =>
        let answer := ans k
        if answer = "yes".data ∨ answer = "y".data then
          match confirmDelete shell target_path branch (ans (k + 1)) with
          | (res, _) =>
            let stats2 : RunStats :=
              match res with
              | .ok (some _) => { stats1 with delete_count := stats1.delete_count + 1 }
              | _ => stats1
            match res with
            | .error e => (some e, stats2)
            | .ok _ => branchCycleGo shell ans target_path rest (k + 2) stats2
        else if answer = "exit".data ∨ answer = "x".data then
          (some "User Exit".data, stats1)
        else
          branchCycleGo shell ans target_path rest (k + 1) stats1

/-- `branchCycle` (source lines 112–161): run the loop body over the whole
list of log entries starting from zeroed statistics; the final callback
receives the halting error (if any) and the statistics. -/
def branchCycle (shell : Shell) (ans : Nat → List Char) (target_path : List Char)
    (git_logs : List (List Char)) : Option (List Char) × RunStats :=
  branchCycleGo shell ans target_path git_logs 0 ⟨0, 0⟩

/-- One console/log event emitted by the final callback of `launchCleaner`. -/
inductive LogEvent where
  /-- The two statistics lines (source lines 190–191). -/
  | statsReport (branch_count delete_count : Nat) : LogEvent
  /-- `util.log("Git clean processing failure - " + util.inspect(err))`
  (source line 197), the failure log, carrying the error value. -/
  | failureReport (err : List Char) : LogEvent
deriving DecidableEq, Repr

/-- The final callback of `branchCycle` inside `launchCleaner` (source
lines 185–199): the statistics are printed whenever `run_stats` is present
(it always is — `branchCycle` always passes its accumulator), and then any
error value, the "User Exit" signal included, is logged via the failure
log. -/
def reportResults (err : Option (List Char)) (run_stats : RunStats) : List LogEvent :=
  [LogEvent.statsReport run_stats.branch_count run_stats.delete_count] ++
    (match err with
     | some e => [LogEvent.failureReport e]
     | none => [])

/-- `launchCleaner` after a successful branch-listing retrieval: run the
review loop on the split output lines and emit the final report events. -/
def launchCleanerReport (shell : Shell) (ans : Nat → List Char)
    (target_path : List Char) (git_logs : List (List Char)) : List LogEvent :=
  let r := branchCycle shell ans target_path git_logs
  reportResults r.1 r.2

/-- A shell on which every command succeeds silently. -/
def quietShell : Shell := fun _ => ⟨false, []⟩

/-- A shell on which every command fails with an execution-error signal. -/
def failShell : Shell := fun _ => ⟨true, "boom".data⟩

/-- The concrete branch used for the C4 counterexample and witness. -/
def c4Branch : Branch := ⟨"origin".data, "dead".data, "raw [[branch]] origin/dead".data⟩

/-- A shell on which the local-delete command for `c4Branch` fails and
every other command succeeds silently. -/
def localFailShell : Shell := fun cmd =>
  if cmd = mkCmd "repo".data (localDeleteCmd c4Branch) then ⟨true, "no local branch".data⟩
  else ⟨false, []⟩

/-- The constant operator who answers "no" to every prompt. -/
def noAns : Nat → List Char := fun _ => "no".data

/-- The constant operator who confirms everything. -/
def yesAns : Nat → List Char := fun _ => "yes".data

/-- In a list that splits as `r ++ c :: b` with no `c` inside `r`, the first
occurrence of `c` is at index `r.length`. -/
theorem indexOfChar_first (c : Char) (r b : List Char) (hr : c ∉ r) :
    indexOfChar c (r ++ c :: b) = some r.length := by
  induction r with
  | nil => simp [indexOfChar]
  | cons d rest ih =>
    have hd : d ≠ c := by
      intro h
      exact hr (h ▸ List.mem_cons_self d rest)
    have hrest : c ∉ rest := fun h => hr (List.mem_cons_of_mem d h)
    simp [indexOfChar, hd, ih hrest]

/-- Dropping one past the left part of `r ++ c :: b` leaves `b`. -/
theorem drop_append_cons (r b : List Char) (c : Char) :
    (r ++ c :: b).drop (r.length + 1) = b := by
  rw [← List.drop_drop, List.drop_left]
  rfl

/-- Claim C1: for every well-formed raw line — the marker token occurs (at
first index `i`), the text after it trims to a payload of the shape
`r ++ '/' :: b` whose first `/` is the shown one (`'/' ∉ r`) with `r` and
`b` non-empty — `parseBranch` succeeds with `git_remote = r` (the text
before the first `/`), `git_branch = b` (everything after it), and
`branch_info` exactly the original untrimmed line. -/
theorem parseBranch_wellformed_ok (line r b : List Char) (i : Nat)
    (hm : indexOfSub markerL line = some i)
    (hpayload : trimList (line.drop (i + markerL.length)) = r ++ '/' :: b)
    (hslash : '/' ∉ r) (hr : r ≠ []) (hb : b ≠ []) :
    parseBranch line = .ok ⟨r, b, line⟩ := by
  unfold parseBranch
  rw [hm]
  simp only [hpayload, indexOfChar_first '/' r b hslash, List.take_left,
    drop_append_cons]
  simp [hr, hb]

/-- Witness for C1 at the raw line
`"123 alice fix [[branch]] origin/release/1.0"`. -/
theorem parseBranch_wellformed_ok_witness :
    indexOfSub markerL "123 alice fix [[branch]] origin/release/1.0".data = some 14 ∧
    trimList ("123 alice fix [[branch]] origin/release/1.0".data.drop (14 + markerL.length)) =
      "origin".data ++ '/' :: "release/1.0".data ∧
    '/' ∉ "origin".data ∧
    parseBranch "123 alice fix [[branch]] origin/release/1.0".data =
      .ok ⟨"origin".data, "release/1.0".data,
           "123 alice fix [[branch]] origin/release/1.0".data⟩ :=
  ⟨by decide, by decide, by decide,
   parseBranch_wellformed_ok _ _ _ 14 (by decide) (by decide) (by decide)
     (by decide) (by decide)⟩

/-- Claim C2: a non-blank raw line on which parsing fails bumps
`branch_count` (the record was attempted) and halts the whole loop with
the parse error, leaving the rest of the feed unprocessed. -/
theorem branchCycle_parse_failure_halts (shell : Shell) (ans : Nat → List Char)
    (tp entry : List Char) (rest : List (List Char)) (k bc dc : Nat)
    (e : List Char) (hne : entry ≠ []) (herr : parseBranch entry = .error e) :
    branchCycleGo shell ans tp (entry :: rest) k ⟨bc, dc⟩ = (some e, ⟨bc + 1, dc⟩) := by
  simp only [branchCycleGo]
  rw [if_neg (by simp [hne])]
  simp [herr]

/-- Witness for C2: a malformed line ahead of a well-formed one halts the
session at once with the missing-marker error. -/
theorem branchCycle_parse_failure_halts_witness :
    ("garbage".data : List Char) ≠ [] ∧
    parseBranch "garbage".data = .error (missingMarkerMsg "garbage".data) ∧
    branchCycleGo quietShell (fun _ => "no".data) "repo".data
        ["garbage".data, "a [[branch]] o/b1".data] 0 ⟨0, 0⟩ =
      (some (missingMarkerMsg "garbage".data), ⟨1, 0⟩) :=
  ⟨by decide, by rfl,
   branchCycle_parse_failure_halts quietShell (fun _ => "no".data) "repo".data
     "garbage".data ["a [[branch]] o/b1".data] 0 0 0
     (missingMarkerMsg "garbage".data) (by decide) (by rfl)⟩

/-- Claim C3: on a confirmed deletion whose remote-delete command fails,
`confirmDelete` propagates that failure and the shell trace holds the
remote-delete command only — the local-delete command is never invoked. -/
theorem confirmDelete_remote_failure_propagates (shell : Shell)
    (tp : List Char) (branch : Branch) (answer e : List Char)
    (hans : answer = "yes".data ∨ answer = "y".data)
    (herr : runShellCommand shell tp (remoteDeleteCmd branch) false = .error e) :
    confirmDelete shell tp branch answer =
      (.error e, [mkCmd tp (remoteDeleteCmd branch)]) := by
  unfold confirmDelete
  rw [if_pos hans, herr]

/-- Witness for C3 at a concrete branch and an always-failing shell. -/
theorem confirmDelete_remote_failure_propagates_witness :
    (("yes".data : List Char) = "yes".data ∨ ("yes".data : List Char) = "y".data) ∧
    runShellCommand failShell "repo".data
        (remoteDeleteCmd ⟨"origin".data, "dead".data, "raw".data⟩) false =
      .error (cmdFailMsg (mkCmd "repo".data
        (remoteDeleteCmd ⟨"origin".data, "dead".data, "raw".data⟩))) ∧
    confirmDelete failShell "repo".data ⟨"origin".data, "dead".data, "raw".data⟩
        "yes".data =
      (.error (cmdFailMsg (mkCmd "repo".data
          (remoteDeleteCmd ⟨"origin".data, "dead".data, "raw".data⟩))),
       [mkCmd "repo".data (remoteDeleteCmd ⟨"origin".data, "dead".data, "raw".data⟩)]) :=
  ⟨Or.inl rfl, by rfl,
   confirmDelete_remote_failure_propagates failShell "repo".data
     ⟨"origin".data, "dead".data, "raw".data⟩ "yes".data _ (Or.inl rfl) (by rfl)⟩

/-- Counterexample to claim C4 as stated: on a confirmed deletion whose
remote delete succeeds, `confirmDelete` returns success carrying the
local-delete command string, which is not the remote-delete command — the
success evidence is the local-delete command, not the remote-delete one. -/
theorem confirmDelete_evidence_cex :
    (confirmDelete localFailShell "repo".data c4Branch "yes".data).1 =
      .ok (some (mkCmd "repo".data (localDeleteCmd c4Branch))) ∧
    mkCmd "repo".data (localDeleteCmd c4Branch) ≠
      mkCmd "repo".data (remoteDeleteCmd c4Branch) :=
  ⟨by rfl, by decide⟩

/-- Claim C4 (amended): on a confirmed deletion whose remote-delete
command succeeds, `confirmDelete` invokes the local-delete command with
errors ignored and returns success carrying the local-delete command
string (not the remote-delete command), regardless of the local delete's
outcome; and the review loop bumps `delete_count` for that branch even
when the local delete fails. -/
theorem confirmDelete_success_ignores_local (shell : Shell) (ans : Nat → List Char)
    (tp : List Char) (branch : Branch) (answer entry : List Char)
    (rest : List (List Char)) (k bc dc : Nat)
    (hans : answer = "yes".data ∨ answer = "y".data)
    (hremote : (shell (mkCmd tp (remoteDeleteCmd branch))).stderr = [] ∧
               (shell (mkCmd tp (remoteDeleteCmd branch))).execErr = false)
    (hparse : parseBranch entry = .ok branch)
    (hak : ans k = "yes".data ∨ ans k = "y".data)
    (hak1 : ans (k + 1) = answer) :
    confirmDelete shell tp branch answer =
      (.ok (some (mkCmd tp (localDeleteCmd branch))),
       [mkCmd tp (remoteDeleteCmd branch), mkCmd tp (localDeleteCmd branch)]) ∧
    branchCycleGo shell ans tp (entry :: rest) k ⟨bc, dc⟩ =
      branchCycleGo shell ans tp rest (k + 2) ⟨bc + 1, dc + 1⟩ := by
  have hcd : confirmDelete shell tp branch answer =
      (.ok (some (mkCmd tp (localDeleteCmd branch))),
       [mkCmd tp (remoteDeleteCmd branch), mkCmd tp (localDeleteCmd branch)]) := by
    unfold confirmDelete
    rw [if_pos hans]
    have hrun : runShellCommand shell tp (remoteDeleteCmd branch) false =
        .ok (mkCmd tp (remoteDeleteCmd branch)) := by
      unfold runShellCommand
      simp [hremote.1, hremote.2]
    rw [hrun]
    unfold runShellCommand
    simp
  refine ⟨hcd, ?_⟩
  have hne : entry ≠ [] := by
    intro h
    rw [h] at hparse
    have : parseBranch ([] : List Char) = .error (missingMarkerMsg []) := by rfl
    rw [this] at hparse
    exact absurd hparse (by simp)
  simp only [branchCycleGo]
  rw [if_neg (by simp [hne])]
  simp only [hparse, hak1]
  rw [if_pos hak, hcd]

/-- Witness for C4 at `c4Branch` and the shell on which the local delete
fails: the confirmer still succeeds with the local-delete command as
evidence, and a one-record session counts the branch as deleted. -/
theorem confirmDelete_success_ignores_local_witness :
    (("yes".data : List Char) = "yes".data ∨ ("yes".data : List Char) = "y".data) ∧
    (localFailShell (mkCmd "repo".data (remoteDeleteCmd c4Branch))).stderr = [] ∧
    (localFailShell (mkCmd "repo".data (remoteDeleteCmd c4Branch))).execErr = false ∧
    parseBranch "raw [[branch]] origin/dead".data = .ok c4Branch ∧
    (confirmDelete localFailShell "repo".data c4Branch "yes".data =
      (.ok (some (mkCmd "repo".data (localDeleteCmd c4Branch))),
       [mkCmd "repo".data (remoteDeleteCmd c4Branch),
        mkCmd "repo".data (localDeleteCmd c4Branch)]) ∧
     branchCycleGo localFailShell (fun _ => "yes".data) "repo".data
         ["raw [[branch]] origin/dead".data] 0 ⟨0, 0⟩ =
       branchCycleGo localFailShell (fun _ => "yes".data) "repo".data [] 2 ⟨1, 1⟩) ∧
    branchCycle localFailShell (fun _ => "yes".data) "repo".data
        ["raw [[branch]] origin/dead".data] = (none, ⟨1, 1⟩) :=
  ⟨Or.inl rfl, by rfl, by rfl, by rfl,
   confirmDelete_success_ignores_local localFailShell (fun _ => "yes".data)
     "repo".data c4Branch "yes".data "raw [[branch]] origin/dead".data [] 0 0 0
     (Or.inl rfl) ⟨by rfl, by rfl⟩ (by rfl) (Or.inl rfl) rfl,
   by rfl⟩

/-- Claim C7: with `ignore_errors` false, `runShellCommand` fails (with
the failure message for the command that was run) exactly when the
captured standard error is non-empty or an execution-error signal was
raised; with `ignore_errors` true it always succeeds; and whenever the
command produced no diagnostics it succeeds for either flag, returning
the command string that was run. -/
theorem runShellCommand_spec (shell : Shell) (tp c : List Char) (ig : Bool) :
    (ig = false →
      (runShellCommand shell tp c false = .error (cmdFailMsg (mkCmd tp c)) ↔
        (shell (mkCmd tp c)).stderr ≠ [] ∨ (shell (mkCmd tp c)).execErr = true)) ∧
    (ig = true → runShellCommand shell tp c true = .ok (mkCmd tp c)) ∧
    ((shell (mkCmd tp c)).stderr = [] ∧ (shell (mkCmd tp c)).execErr = false →
      runShellCommand shell tp c ig = .ok (mkCmd tp c)) := by
  cases hso : shell (mkCmd tp c) with
  | mk e s =>
    refine ⟨?_, ?_, ?_⟩
    · intro _
      cases e <;> cases s <;> simp [runShellCommand, hso]
    · intro hig
      subst hig
      simp [runShellCommand]
    · intro h
      obtain ⟨h1, h2⟩ := h
      simp only at h1 h2
      subst h1
      subst h2
      cases ig <;> simp [runShellCommand, hso]

/-- Witness for C7 at the always-failing shell with `ignore_errors`
false: the iff instance obtained from the theorem. -/
theorem runShellCommand_spec_witness :
    ((false : Bool) = false →
      (runShellCommand failShell "repo".data "git status".data false =
          .error (cmdFailMsg (mkCmd "repo".data "git status".data)) ↔
        (failShell (mkCmd "repo".data "git status".data)).stderr ≠ [] ∨
          (failShell (mkCmd "repo".data "git status".data)).execErr = true)) ∧
    ((false : Bool) = true →
      runShellCommand failShell "repo".data "git status".data true =
        .ok (mkCmd "repo".data "git status".data)) ∧
    ((failShell (mkCmd "repo".data "git status".data)).stderr = [] ∧
      (failShell (mkCmd "repo".data "git status".data)).execErr = false →
      runShellCommand failShell "repo".data "git status".data false =
        .ok (mkCmd "repo".data "git status".data)) :=
  runShellCommand_spec failShell "repo".data "git status".data false

/-- Claim C6: answering "exit" or "x" at the prompt of a parsed record
halts the loop at once with the distinguished "User Exit" signal and the
statistics accumulated so far (the current record already counted); the
remaining records are never reached. -/
theorem branchCycle_exit_halts (shell : Shell) (ans : Nat → List Char)
    (tp entry : List Char) (branch : Branch) (rest : List (List Char))
    (k bc dc : Nat)
    (hparse : parseBranch entry = .ok branch)
    (hans : ans k = "exit".data ∨ ans k = "x".data) :
    branchCycleGo shell ans tp (entry :: rest) k ⟨bc, dc⟩ =
      (some "User Exit".data, ⟨bc + 1, dc⟩) := by
  have hne : entry ≠ [] := by
    intro h
    rw [h] at hparse
    have : parseBranch ([] : List Char) = .error (missingMarkerMsg []) := by rfl
    rw [this] at hparse
    exact absurd hparse (by simp)
  have hno : ¬(ans k = "yes".data ∨ ans k = "y".data) := by
    rcases hans with h | h <;> rw [h] <;> decide
  simp only [branchCycleGo]
  rw [if_neg (by simp [hne])]
  simp only [hparse]
  rw [if_neg hno, if_pos hans]

/-- Witness for C6: a session in which the operator skips the first
record and exits on the second halts with the "User Exit" signal,
`branch_count = 2` and `delete_count = 0`. -/
theorem branchCycle_exit_halts_witness :
    parseBranch "b [[branch]] o/b2".data =
      .ok ⟨"o".data, "b2".data, "b [[branch]] o/b2".data⟩ ∧
    ((fun k => if k = 1 then "exit".data else "no".data) 1 = "exit".data ∨
     (fun k => if k = 1 then "exit".data else "no".data) 1 = "x".data) ∧
    branchCycleGo quietShell (fun k => if k = 1 then "exit".data else "no".data)
        "repo".data ["b [[branch]] o/b2".data, "c [[branch]] o/b3".data] 1 ⟨1, 0⟩ =
      (some "User Exit".data, ⟨2, 0⟩) ∧
    branchCycle quietShell (fun k => if k = 1 then "exit".data else "no".data)
        "repo".data
        ["a [[branch]] o/b1".data, "b [[branch]] o/b2".data, "c [[branch]] o/b3".data] =
      (some "User Exit".data, ⟨2, 0⟩) :=
  ⟨by rfl, Or.inl rfl,
   branchCycle_exit_halts quietShell (fun k => if k = 1 then "exit".data else "no".data)
     "repo".data "b [[branch]] o/b2".data
     ⟨"o".data, "b2".data, "b [[branch]] o/b2".data⟩
     ["c [[branch]] o/b3".data] 1 1 0 (by rfl) (Or.inl rfl),
   by rfl⟩

/-- The marker token never occurs in a line made only of whitespace
characters (its first character `[` is not whitespace). -/
theorem indexOfSub_marker_ws_none (s : List Char) (h : ∀ c ∈ s, jsWS c = true) :
    indexOfSub markerL s = none := by
  induction s with
  | nil => decide
  | cons c rest ih =>
    have hc : jsWS c = true := h c (List.mem_cons_self c rest)
    have hne : c ≠ '[' := by
      intro hcc
      rw [hcc] at hc
      exact absurd hc (by decide)
    have hpre : markerL.isPrefixOf (c :: rest) = false := by
      have hm : markerL = '[' :: "[branch]]".data := by rfl
      rw [hm]
      simp only [List.isPrefixOf, Bool.and_eq_false_iff]
      left
      simp only [beq_eq_false_iff_ne, ne_eq]
      exact fun hcc => hne hcc.symm
    have hrest : ∀ d ∈ rest, jsWS d = true := fun d hd => h d (List.mem_cons_of_mem c hd)
    simp [indexOfSub, hpre, ih hrest]

/-- Claim C10: a non-empty raw line made only of whitespace is not treated
as blank: the loop bumps `branch_count`, attempts the parse, and — the
line holding no marker token — halts the whole session with the
missing-marker error. -/
theorem branchCycle_whitespace_line_halts (shell : Shell) (ans : Nat → List Char)
    (tp line : List Char) (rest : List (List Char)) (k bc dc : Nat)
    (hne : line ≠ []) (hws : ∀ c ∈ line, jsWS c = true) :
    branchCycleGo shell ans tp (line :: rest) k ⟨bc, dc⟩ =
      (some (missingMarkerMsg line), ⟨bc + 1, dc⟩) := by
  have hparse : parseBranch line = .error (missingMarkerMsg line) := by
    unfold parseBranch
    rw [indexOfSub_marker_ws_none line hws]
  simp only [branchCycleGo]
  rw [if_neg (by simp [hne])]
  simp [hparse]

/-- Witness for C10 at the line of three spaces. -/
theorem branchCycle_whitespace_line_halts_witness :
    ("   ".data : List Char) ≠ [] ∧
    (∀ c ∈ ("   ".data : List Char), jsWS c = true) ∧
    branchCycleGo quietShell (fun _ => "no".data) "repo".data
        ["   ".data, "a [[branch]] o/b1".data] 0 ⟨0, 0⟩ =
      (some (missingMarkerMsg "   ".data), ⟨1, 0⟩) :=
  ⟨by decide, by decide,
   branchCycle_whitespace_line_halts quietShell (fun _ => "no".data) "repo".data
     "   ".data ["a [[branch]] o/b1".data] 0 0 0 (by decide) (by decide)⟩

/-- Loop-body invariant for an operator who never confirms and never
exits: every non-blank entry (all of which parse) is counted and skipped,
so the loop completes with `branch_count` grown by the number of
non-blank entries and `delete_count` untouched. -/
theorem branchCycleGo_all_skip (shell : Shell) (ans : Nat → List Char)
    (tp : List Char) (logs : List (List Char))
    (hparse : ∀ l ∈ logs, l ≠ [] → ∃ br, parseBranch l = .ok br)
    (hans : ∀ i : Nat, ans i ≠ "yes".data ∧ ans i ≠ "y".data ∧
                 ans i ≠ "exit".data ∧ ans i ≠ "x".data) :
    ∀ k bc dc, branchCycleGo shell ans tp logs k ⟨bc, dc⟩ =
      (none, ⟨bc + logs.countP (fun l => !l.isEmpty), dc⟩) := by
  induction logs with
  | nil =>
    intro k bc dc
    simp [branchCycleGo]
  | cons entry rest ih =>
    intro k bc dc
    have hparse' : ∀ l ∈ rest, l ≠ [] → ∃ br, parseBranch l = .ok br :=
      fun l hl => hparse l (List.mem_cons_of_mem entry hl)
    simp only [branchCycleGo]
    by_cases hblank : entry.isEmpty
    · rw [if_pos hblank, ih hparse' k bc dc]
      simp [List.countP_cons, hblank]
    · rw [if_neg hblank]
      rw [Bool.not_eq_true] at hblank
      have hne : entry ≠ [] := by
        intro h
        rw [h] at hblank
        exact absurd hblank (by decide)
      obtain ⟨br, hbr⟩ := hparse entry (List.mem_cons_self entry rest) hne
      simp only [hbr]
      obtain ⟨h1, h2, h3, h4⟩ := hans k
      rw [if_neg (by tauto), if_neg (by tauto), ih hparse' (k + 1) (bc + 1) dc]
      simp only [List.countP_cons, hblank, Bool.not_false, if_true,
        Prod.mk.injEq, RunStats.mk.injEq]
      exact ⟨trivial, by omega, trivial⟩

/-- Counterexample to claim C5 as stated: with a malformed (non-blank,
marker-less) raw line in the feed, the loop does not complete normally
even though the operator's answer to every prompt is "no" — it halts with
the parse error after counting only the records up to it, so neither
"completes normally" nor "branch_count = number of non-blank lines"
holds. -/
theorem branchCycle_all_no_cex :
    branchCycle quietShell noAns "repo".data
        ["garbage".data, "a [[branch]] o/b1".data] =
      (some (missingMarkerMsg "garbage".data), ⟨1, 0⟩) := by rfl

/-- Claim C5 (amended): for every input sequence whose non-blank lines all
parse, if the operator answers with a token other than "yes"/"y"/"exit"/
"x" at every prompt, the loop completes normally (no error signal) with
`delete_count = 0` and `branch_count` equal to the number of non-blank
lines; blank lines contribute neither to `branch_count` nor to any
prompt. -/
theorem branchCycle_all_skip_completes (shell : Shell) (ans : Nat → List Char)
    (tp : List Char) (logs : List (List Char))
    (hparse : ∀ l ∈ logs, l ≠ [] → ∃ br, parseBranch l = .ok br)
    (hans : ∀ i : Nat, ans i ≠ "yes".data ∧ ans i ≠ "y".data ∧
                 ans i ≠ "exit".data ∧ ans i ≠ "x".data) :
    branchCycle shell ans tp logs =
      (none, ⟨logs.countP (fun l => !l.isEmpty), 0⟩) := by
  unfold branchCycle
  rw [branchCycleGo_all_skip shell ans tp logs hparse hans 0 0 0]
  simp

/-- Witness for C5: two well-formed lines with a blank one in between and
the operator answering "no" throughout: normal completion, two branches
counted, none deleted. -/
theorem branchCycle_all_skip_completes_witness :
    (∀ l ∈ [("a [[branch]] o/b1".data : List Char), [], "c [[branch]] o/b2".data],
       l ≠ [] → ∃ br, parseBranch l = .ok br) ∧
    (∀ i : Nat, noAns i ≠ "yes".data ∧ noAns i ≠ "y".data ∧
       noAns i ≠ "exit".data ∧ noAns i ≠ "x".data) ∧
    branchCycle quietShell noAns "repo".data
        ["a [[branch]] o/b1".data, [], "c [[branch]] o/b2".data] =
      (none, ⟨[("a [[branch]] o/b1".data : List Char), [],
               "c [[branch]] o/b2".data].countP (fun l => !l.isEmpty), 0⟩) := by
  have hparse : ∀ l ∈ [("a [[branch]] o/b1".data : List Char), [],
      "c [[branch]] o/b2".data], l ≠ [] → ∃ br, parseBranch l = .ok br := by
    intro l hl hne
    simp only [List.mem_cons, List.not_mem_nil, or_false] at hl
    rcases hl with rfl | rfl | rfl
    · exact ⟨⟨"o".data, "b1".data, "a [[branch]] o/b1".data⟩, by rfl⟩
    · exact absurd rfl hne
    · exact ⟨⟨"o".data, "b2".data, "c [[branch]] o/b2".data⟩, by rfl⟩
  have hans : ∀ i : Nat, noAns i ≠ "yes".data ∧ noAns i ≠ "y".data ∧
      noAns i ≠ "exit".data ∧ noAns i ≠ "x".data :=
    fun i => ⟨show "no".data ≠ "yes".data by decide,
              show "no".data ≠ "y".data by decide,
              show "no".data ≠ "exit".data by decide,
              show "no".data ≠ "x".data by decide⟩
  exact ⟨hparse, hans,
    branchCycle_all_skip_completes quietShell noAns "repo".data
      ["a [[branch]] o/b1".data, [], "c [[branch]] o/b2".data] hparse hans⟩

/-- The loop body preserves `delete_count ≤ branch_count`: each record
bumps `branch_count` exactly once before any deletion for it can happen,
and bumps `delete_count` at most once. -/
theorem branchCycleGo_delete_le (shell : Shell) (ans : Nat → List Char)
    (tp : List Char) (logs : List (List Char)) :
    ∀ (k : Nat) (stats : RunStats), stats.delete_count ≤ stats.branch_count →
      (branchCycleGo shell ans tp logs k stats).2.delete_count ≤
        (branchCycleGo shell ans tp logs k stats).2.branch_count := by
  induction logs with
  | nil =>
    intro k stats h
    simpa [branchCycleGo] using h
  | cons entry rest ih =>
    intro k stats h
    simp only [branchCycleGo]
    by_cases hblank : entry.isEmpty
    · rw [if_pos hblank]
      exact ih k stats h
    · rw [if_neg hblank]
      cases hp : parseBranch entry with
      | error e =>
        simp only [hp]
        omega
      | ok branch =>
        simp only [hp]
        by_cases hyes : ans k = "yes".data ∨ ans k = "y".data
        · rw [if_pos hyes]
          rcases hc : confirmDelete shell tp branch (ans (k + 1)) with ⟨res, trace⟩
          simp only [hc]
          cases res with
          | error e =>
            dsimp only
            omega
          | ok o =>
            cases o with
            | none =>
              exact ih (k + 2) _ (by simp only []; omega)
            | some cmd =>
              exact ih (k + 2) _ (by simp only []; omega)
        · rw [if_neg hyes]
          by_cases hexit : ans k = "exit".data ∨ ans k = "x".data
          · rw [if_pos hexit]
            simp only []
            omega
          · rw [if_neg hexit]
            exact ih (k + 1) _ (by simp only []; omega)

/-- Claim C9: from any reachable point of the loop (any remaining feed,
prompt index and accumulated statistics satisfying it), the invariant
`delete_count ≤ branch_count` holds of the statistics returned on every
termination path; in particular it holds of a whole session's returned
statistics. -/
theorem branchCycle_stats_invariant (shell : Shell) (ans : Nat → List Char)
    (tp : List Char) (logs : List (List Char)) (k : Nat) (stats : RunStats)
    (h : stats.delete_count ≤ stats.branch_count) :
    (branchCycleGo shell ans tp logs k stats).2.delete_count ≤
      (branchCycleGo shell ans tp logs k stats).2.branch_count ∧
    (branchCycle shell ans tp logs).2.delete_count ≤
      (branchCycle shell ans tp logs).2.branch_count :=
  ⟨branchCycleGo_delete_le shell ans tp logs k stats h,
   branchCycleGo_delete_le shell ans tp logs 0 ⟨0, 0⟩ (Nat.le_refl 0)⟩

/-- Witness for C9 on a two-record session in which both deletions are
confirmed and succeed. -/
theorem branchCycle_stats_invariant_witness :
    (⟨0, 0⟩ : RunStats).delete_count ≤ (⟨0, 0⟩ : RunStats).branch_count ∧
    ((branchCycleGo quietShell yesAns "repo".data
        ["a [[branch]] o/b1".data, "c [[branch]] o/b2".data] 0 ⟨0, 0⟩).2.delete_count ≤
      (branchCycleGo quietShell yesAns "repo".data
        ["a [[branch]] o/b1".data, "c [[branch]] o/b2".data] 0 ⟨0, 0⟩).2.branch_count ∧
     (branchCycle quietShell yesAns "repo".data
        ["a [[branch]] o/b1".data, "c [[branch]] o/b2".data]).2.delete_count ≤
      (branchCycle quietShell yesAns "repo".data
        ["a [[branch]] o/b1".data, "c [[branch]] o/b2".data]).2.branch_count) :=
  ⟨Nat.le_refl 0,
   branchCycle_stats_invariant quietShell yesAns "repo".data
     ["a [[branch]] o/b1".data, "c [[branch]] o/b2".data] 0 ⟨0, 0⟩ (Nat.le_refl 0)⟩

/-- Claim C8 (amended): however the review loop terminates — normal
completion, the "User Exit" signal, or a fatal error — the driver's final
callback emits the accumulated `branch_count` and `delete_count` first,
and a failure-log event appears (strictly after the statistics) exactly
for the termination signal present, the "User Exit" signal being logged
through the same failure log as genuine errors. -/
theorem launchCleanerReport_stats_first (shell : Shell) (ans : Nat → List Char)
    (tp : List Char) (logs : List (List Char)) :
    (launchCleanerReport shell ans tp logs).head? =
      some (LogEvent.statsReport (branchCycle shell ans tp logs).2.branch_count
        (branchCycle shell ans tp logs).2.delete_count) ∧
    (∀ e : List Char,
      LogEvent.failureReport e ∈ launchCleanerReport shell ans tp logs ↔
        (branchCycle shell ans tp logs).1 = some e) ∧
    (∀ e : List Char,
      LogEvent.failureReport e ∈ (launchCleanerReport shell ans tp logs).drop 1 ↔
        (branchCycle shell ans tp logs).1 = some e) := by
  unfold launchCleanerReport reportResults
  cases hr : (branchCycle shell ans tp logs).1 with
  | none => simp [hr]
  | some e0 =>
    simp [hr]
    exact fun e => ⟨fun h => h.symm, fun h => h.symm⟩

/-- Counterexample to claim C8 as stated: on a session the operator ends
with "exit", the driver logs the "User Exit" signal through the very same
failure log (`util.log("Git clean processing failure - " + ...)`) used
for genuine errors — the "User Exit" signal is not exempt from error
logging. -/
theorem launchCleanerReport_userexit_logged_cex :
    launchCleanerReport quietShell (fun _ => "exit".data) "repo".data
        ["a [[branch]] o/b1".data] =
      [LogEvent.statsReport 1 0, LogEvent.failureReport "User Exit".data] ∧
    LogEvent.failureReport "User Exit".data ∈
      launchCleanerReport quietShell (fun _ => "exit".data) "repo".data
        ["a [[branch]] o/b1".data] := by
  refine ⟨by rfl, ?_⟩
  rw [show launchCleanerReport quietShell (fun _ => "exit".data) "repo".data
      ["a [[branch]] o/b1".data] =
    [LogEvent.statsReport 1 0, LogEvent.failureReport "User Exit".data] from rfl]
  simp
